import Mathlib

/-!
Verification of the nanopore-mods aggregation core.

The program accumulates base-modification quality histograms from alignment
records.  We shallowly embed the pieces relevant to the claims:

* `encoding` — the 256-entry nucleotide lookup table;
* `processSite` / `processRecord` — the body of `mod_prob_stats::operator()`
  (the per-read accumulator), with the external reader abstracted as the data
  it supplies: strand flag, read length, decoded-base accessor, and the list
  of modification-call groups yielded by `bam_next_basemod`;
* `sum_to_map` / `mkFmt` — the strand-collapsed formatter `mod_prob_stats_fmt`;
* `to_map` / `mkFmtStranded` — the strand-separated formatter
  `mod_prob_stats_fmt_stranded`;
* `runMain` — the driver loop of `main` (read statuses, error handling,
  report selection).

Histograms are `Fin 256 → Nat` (the C++ arrays are `std::array<uint64_t,256>`);
quality values supplied by the reader are bytes (`Fin 256`), matching the
`hts_base_mod` quality convention.  `std::map`s are embedded as association
lists with distinct keys, in key order.
-/

set_option maxRecDepth 20000

namespace NanoporeMods

/-- The 256-entry `encoding` array from the source, row for row. -/
def encodingList : List Nat := [
  4, 4, 4, 4, 4, 4, 4, 4, 4, 4, 4, 4, 4, 4, 4, 4,
  4, 4, 4, 4, 4, 4, 4, 4, 4, 4, 4, 4, 4, 4, 4, 4,
  4, 4, 4, 4, 4, 4, 4, 4, 4, 4, 4, 4, 4, 4, 4, 4,
  4, 4, 4, 4, 4, 4, 4, 4, 4, 4, 4, 4, 4, 4, 4, 4,
  4, 0, 4, 1, 4, 4, 4, 2, 4, 4, 4, 4, 4, 4, 4, 4,
  4, 4, 4, 4, 3, 4, 4, 4, 4, 4, 4, 4, 4, 4, 4, 4,
  4, 4, 4, 4, 4, 4, 4, 4, 4, 4, 4, 4, 4, 4, 4, 4,
  4, 4, 4, 4, 4, 4, 4, 4, 4, 4, 4, 4, 4, 4, 4, 4,
  4, 4, 4, 4, 4, 4, 4, 4, 4, 4, 4, 4, 4, 4, 4, 4,
  4, 4, 4, 4, 4, 4, 4, 4, 4, 4, 4, 4, 4, 4, 4, 4,
  4, 4, 4, 4, 4, 4, 4, 4, 4, 4, 4, 4, 4, 4, 4, 4,
  4, 4, 4, 4, 4, 4, 4, 4, 4, 4, 4, 4, 4, 4, 4, 4,
  4, 4, 4, 4, 4, 4, 4, 4, 4, 4, 4, 4, 4, 4, 4, 4,
  4, 4, 4, 4, 4, 4, 4, 4, 4, 4, 4, 4, 4, 4, 4, 4,
  4, 4, 4, 4, 4, 4, 4, 4, 4, 4, 4, 4, 4, 4, 4, 4,
  4, 4, 4, 4, 4, 4, 4, 4, 4, 4, 4, 4, 4, 4, 4, 4]

/-- `encoding[b]`: the array lookup, total on `Nat` with the array's own
default value `4` outside the index range (the C++ index is a `uint8_t`, so
only `b < 256` ever occurs). -/
def encoding (b : Nat) : Nat := encodingList.getD b 4

/-- `n_nucs` from the source. -/
def n_nucs : Nat := 4

lemma encodingList_length : encodingList.length = 256 := by decide

lemma encoding_le (b : Nat) : encoding b ≤ 4 := by
  by_cases h : b < 256
  · exact (by decide : ∀ b : Fin 256, encoding b.val ≤ 4) ⟨b, h⟩
  · have hlen : encodingList.length ≤ b := by
      rw [encodingList_length]; omega
    simp [encoding, List.getD_eq_getElem?_getD, List.getElem?_eq_none hlen]

/-! ## Data model: histograms, raw stats, records -/

/-- A quality histogram: 256 counters, one per quality score. -/
def Hist : Type := Fin 256 → Nat

/-- A raw stats table: one histogram per canonical context index (4 slots),
embedding `std::array<std::array<uint64_t, 256>, 4>`. -/
def Table : Type := Fin 4 → Hist

/-- The state of `mod_prob_stats`: the scratch `mods` array (we keep only the
`qual` fields, which are the only fields the accumulator reads; the array is
zero-initialized and entries `0..n-1` are overwritten by each
`bam_next_basemod` call) and the four histogram tables. -/
structure ModProbStats where
  mods : Nat → Fin 256
  methyl_fwd : Table
  methyl_rev : Table
  hydroxy_fwd : Table
  hydroxy_rev : Table

/-- One group yielded by `bam_next_basemod`: the read offset `pos` and the
qualities of the `n` modification calls written into `mods[0..n-1]`. -/
structure ModSite where
  pos : Nat
  quals : List (Fin 256)

/-- One alignment record, as the accumulator consumes it from the reader:
strand flag (`bam_is_rev`), read length (`l_qseq`), the decoded-base accessor
(`seq_nt16_str[bam_seqi(seq, i)]` as a byte value) and the ordered groups
yielded by `bam_next_basemod` (each with at least one call while iteration
continues). -/
structure BamRecord where
  is_rev : Bool
  qlen : Nat
  base : Nat → Nat
  sites : List ModSite

/-- `h_idx` from the source: slot of the hydroxymethylation call. -/
def h_idx : Nat := 0

/-- `m_idx` from the source: slot of the methylation call. -/
def m_idx : Nat := 1

/-- `table[i][q]++`. -/
def incr (t : Table) (i : Fin 4) (q : Fin 256) : Table :=
  fun i' q' => if i' = i ∧ q' = q then t i' q' + 1 else t i' q'

/-- `bam_next_basemod` writing the group's calls into the scratch array:
entries `0..n-1` are overwritten, the rest keep their previous values. -/
def writeMods (scratch : Nat → Fin 256) (quals : List (Fin 256)) :
    Nat → Fin 256 :=
  fun i => quals.getD i (scratch i)

/-- One iteration of the `while ((n = bam_next_basemod(...)) > 0)` loop body
in `mod_prob_stats::operator()`:

* the call writes the group into `mods`;
* `if (n < m_idx) continue;`;
* `other_nuc` is the preceding base on the reverse strand (or `'\0'` at
  offset 0) and the following base on the forward strand (or `'\0'` at the
  read end);
* `if (other_enc == n_nucs) continue;`;
* otherwise increment the strand-selected hydroxy histogram at
  `mods[h_idx].qual` and methyl histogram at `mods[m_idx].qual`. -/
def processSite (is_rev : Bool) (qlen : Nat) (base : Nat → Nat)
    (st : ModProbStats) (site : ModSite) : ModProbStats :=
  let st' := { st with mods := writeMods st.mods site.quals }
  let n := site.quals.length
  if n < m_idx then st'
  else
    let other_nuc :=
      if is_rev then (if 0 < site.pos then base (site.pos - 1) else 0)
      else (if site.pos + 1 < qlen then base (site.pos + 1) else 0)
    let other_enc := encoding other_nuc
    if h : other_enc = n_nucs then st'
    else
      let e : Fin 4 := ⟨other_enc, Nat.lt_of_le_of_ne (encoding_le other_nuc) h⟩
      if is_rev then
        { st' with
          hydroxy_rev := incr st'.hydroxy_rev e (st'.mods h_idx)
          methyl_rev := incr st'.methyl_rev e (st'.mods m_idx) }
      else
        { st' with
          hydroxy_fwd := incr st'.hydroxy_fwd e (st'.mods h_idx)
          methyl_fwd := incr st'.methyl_fwd e (st'.mods m_idx) }

/-- `mod_prob_stats::operator()(aln)`: run the basemod loop over the record's
groups. -/
def processRecord (st : ModProbStats) (rec : BamRecord) : ModProbStats :=
  rec.sites.foldl (processSite rec.is_rev rec.qlen rec.base) st

/-- The zero-initialized `mod_prob_stats` at program start. -/
def initStats : ModProbStats where
  mods := fun _ => 0
  methyl_fwd := fun _ _ => 0
  methyl_rev := fun _ _ => 0
  hydroxy_fwd := fun _ _ => 0
  hydroxy_rev := fun _ _ => 0

/-- The four histogram tables of a state (the scratch array is not part of
the reported statistics). -/
def tables (st : ModProbStats) : Table × Table × Table × Table :=
  (st.methyl_fwd, st.methyl_rev, st.hydroxy_fwd, st.hydroxy_rev)

/-! ## Formatters -/

/-- `dinucs` from the source, indexed. -/
def dinucs : Fin 4 → String
  | 0 => "CA"
  | 1 => "CC"
  | 2 => "CG"
  | 3 => "CT"

/-- `dinucs_rev` from the source, indexed. -/
def dinucs_rev : Fin 4 → String
  | 0 => "CT"
  | 1 => "CG"
  | 2 => "CC"
  | 3 => "CA"

/-- The index `n_nucs - 1 - i` used when pairing reverse contexts with
forward contexts. -/
def mirror (i : Fin 4) : Fin 4 := ⟨3 - i.val, by omega⟩

/-- The `v_sum` lambda: element-wise sum of two histograms. -/
def v_sum (a b : Hist) : Hist := fun j => a j + b j

/-- A `std::map<std::string, std::vector<uint64_t>>`, embedded as an
association list with distinct keys. -/
def HistMap : Type := List (String × Hist)

/-- The `sum_to_map` lambda of `mod_prob_stats_fmt`: copy the forward table,
add the reverse histogram at the mirrored index to each entry, then key the
result by `dinucs`.  (The `dinucs` keys are already in increasing order, so
insertion order equals `std::map` key order.) -/
def sum_to_map (f r : Table) : HistMap :=
  let work : Table := fun i => v_sum (f i) (r (mirror i))
  (List.finRange 4).map (fun i => (dinucs i, work i))

/-- `mod_prob_stats_fmt`: the strand-collapsed formatter output. -/
structure ModProbStatsFmt where
  methyl : HistMap
  hydroxy : HistMap

/-- The `mod_prob_stats_fmt` constructor. -/
def mkFmt (mps : ModProbStats) : ModProbStatsFmt where
  methyl := sum_to_map mps.methyl_fwd mps.methyl_rev
  hydroxy := sum_to_map mps.hydroxy_fwd mps.hydroxy_rev

/-- The `to_map` lambda of `mod_prob_stats_fmt_stranded`: key table `x` by the
name vector `y`, values unchanged.  (We keep insertion order; the `std::map`
stores the same key-value pairs sorted by key.) -/
def to_map (x : Table) (y : Fin 4 → String) : HistMap :=
  (List.finRange 4).map (fun i => (y i, x i))

/-- `mod_prob_stats_fmt_stranded`: the strand-separated formatter output. -/
structure ModProbStatsFmtStranded where
  methyl_fwd : HistMap
  methyl_rev : HistMap
  hydroxy_fwd : HistMap
  hydroxy_rev : HistMap

/-- The `mod_prob_stats_fmt_stranded` constructor. -/
def mkFmtStranded (mps : ModProbStats) : ModProbStatsFmtStranded where
  methyl_fwd := to_map mps.methyl_fwd dinucs
  methyl_rev := to_map mps.methyl_rev dinucs_rev
  hydroxy_fwd := to_map mps.hydroxy_fwd dinucs
  hydroxy_rev := to_map mps.hydroxy_rev dinucs_rev

/-- Total count of a histogram. -/
def histSum (h : Hist) : Nat := ∑ j, h j

/-- Total count of a raw table. -/
def tableSum (t : Table) : Nat := ∑ i, histSum (t i)

/-- Total count of a formatted map. -/
def mapSum (m : HistMap) : Nat := (m.map (fun p => histSum p.2)).sum

/-! ## The driver (`main`) -/

/-- The emitted report: one of the two JSON shapes, selected by the
`--stranded` flag. -/
inductive Report where
  | collapsed : ModProbStatsFmt → Report
  | stranded : ModProbStatsFmtStranded → Report

/-- Outcome of a run: process exit code, diagnostic message (if any), and the
report written to the output file (if any). -/
structure RunOutcome where
  exit_code : Nat
  diagnostic : Option String
  report : Option Report

/-- The driver loop of `main`, given the records successfully read
(statuses `> -1`) and the terminal status at which `sam_read1` stopped the
loop (any status `≤ -1`; `-1` is EOF):

* accumulate every record into a zero-initialized `mod_prob_stats`;
* if the terminal status is `< -1`, print a diagnostic and exit with
  `EXIT_FAILURE`, writing no report;
* otherwise format the accumulated state per the `stranded` flag and write
  the report, exiting with `EXIT_SUCCESS`. -/
def runMain (records : List BamRecord) (finalStatus : Int)
    (stranded : Bool) : RunOutcome :=
  let mps := records.foldl processRecord initStats
  if finalStatus < -1 then
    { exit_code := 1
      diagnostic := some "failed reading bam record"
      report := none }
  else
    { exit_code := 0
      diagnostic := none
      report := some (if stranded then Report.stranded (mkFmtStranded mps)
                      else Report.collapsed (mkFmt mps)) }

/-! ## The second source variant

`nanopore_mods.cpp` carries its own copies of the `encoding` table and of
`mod_prob_stats::operator()`.  We embed them separately (suffix `V2`) so that
the equivalence of the two variants' accumulators is a theorem about two
independently translated definitions. -/

/-- The 256-entry `encoding` array of `nanopore_mods.cpp`, row for row. -/
def encodingListV2 : List Nat := [
  4, 4, 4, 4, 4, 4, 4, 4, 4, 4, 4, 4, 4, 4, 4, 4,
  4, 4, 4, 4, 4, 4, 4, 4, 4, 4, 4, 4, 4, 4, 4, 4,
  4, 4, 4, 4, 4, 4, 4, 4, 4, 4, 4, 4, 4, 4, 4, 4,
  4, 4, 4, 4, 4, 4, 4, 4, 4, 4, 4, 4, 4, 4, 4, 4,
  4, 0, 4, 1, 4, 4, 4, 2, 4, 4, 4, 4, 4, 4, 4, 4,
  4, 4, 4, 4, 3, 4, 4, 4, 4, 4, 4, 4, 4, 4, 4, 4,
  4, 4, 4, 4, 4, 4, 4, 4, 4, 4, 4, 4, 4, 4, 4, 4,
  4, 4, 4, 4, 4, 4, 4, 4, 4, 4, 4, 4, 4, 4, 4, 4,
  4, 4, 4, 4, 4, 4, 4, 4, 4, 4, 4, 4, 4, 4, 4, 4,
  4, 4, 4, 4, 4, 4, 4, 4, 4, 4, 4, 4, 4, 4, 4, 4,
  4, 4, 4, 4, 4, 4, 4, 4, 4, 4, 4, 4, 4, 4, 4, 4,
  4, 4, 4, 4, 4, 4, 4, 4, 4, 4, 4, 4, 4, 4, 4, 4,
  4, 4, 4, 4, 4, 4, 4, 4, 4, 4, 4, 4, 4, 4, 4, 4,
  4, 4, 4, 4, 4, 4, 4, 4, 4, 4, 4, 4, 4, 4, 4, 4,
  4, 4, 4, 4, 4, 4, 4, 4, 4, 4, 4, 4, 4, 4, 4, 4,
  4, 4, 4, 4, 4, 4, 4, 4, 4, 4, 4, 4, 4, 4, 4, 4]

/-- The array lookup of the second variant. -/
def encodingV2 (b : Nat) : Nat := encodingListV2.getD b 4

lemma encodingV2_le (b : Nat) : encodingV2 b ≤ 4 := by
  by_cases h : b < 256
  · exact (by decide : ∀ b : Fin 256, encodingV2 b.val ≤ 4) ⟨b, h⟩
  · have hlen : encodingListV2.length ≤ b := by
      have : encodingListV2.length = 256 := by decide
      omega
    simp [encodingV2, List.getD_eq_getElem?_getD, List.getElem?_eq_none hlen]

/-- The basemod-loop body of `mod_prob_stats::operator()` in
`nanopore_mods.cpp`. -/
def processSiteV2 (is_rev : Bool) (qlen : Nat) (base : Nat → Nat)
    (st : ModProbStats) (site : ModSite) : ModProbStats :=
  let st' := { st with mods := writeMods st.mods site.quals }
  let n := site.quals.length
  if n < m_idx then st'
  else
    let other_nuc :=
      if is_rev then (if 0 < site.pos then base (site.pos - 1) else 0)
      else (if site.pos + 1 < qlen then base (site.pos + 1) else 0)
    let other_enc := encodingV2 other_nuc
    if h : other_enc = n_nucs then st'
    else
      let e : Fin 4 := ⟨other_enc, Nat.lt_of_le_of_ne (encodingV2_le other_nuc) h⟩
      if is_rev then
        { st' with
          hydroxy_rev := incr st'.hydroxy_rev e (st'.mods h_idx)
          methyl_rev := incr st'.methyl_rev e (st'.mods m_idx) }
      else
        { st' with
          hydroxy_fwd := incr st'.hydroxy_fwd e (st'.mods h_idx)
          methyl_fwd := incr st'.methyl_fwd e (st'.mods m_idx) }

/-- The second variant's `mod_prob_stats::operator()(aln)`. -/
def processRecordV2 (st : ModProbStats) (rec : BamRecord) : ModProbStats :=
  rec.sites.foldl (processSiteV2 rec.is_rev rec.qlen rec.base) st

/-! ## Supporting definitions for the claims -/

/-- Pointwise order on the four histogram tables of two states: every counter
of the first is at most the corresponding counter of the second. -/
def tablesLE (s t : ModProbStats) : Prop :=
  (∀ i j, s.methyl_fwd i j ≤ t.methyl_fwd i j) ∧
  (∀ i j, s.methyl_rev i j ≤ t.methyl_rev i j) ∧
  (∀ i j, s.hydroxy_fwd i j ≤ t.hydroxy_fwd i j) ∧
  (∀ i j, s.hydroxy_rev i j ≤ t.hydroxy_rev i j)

/-- A forward-strand record of length 3 with bases `C A C` whose single
basemod group sits at offset 0 and reports exactly one modification call
(quality 10): a site at which only one modification kind is present. -/
def singleKindRecord : BamRecord where
  is_rev := false
  qlen := 3
  base := fun i => [67, 65, 67].getD i 0
  sites := [⟨0, [10]⟩]

/-! ## Helper lemmas -/

lemma tablesLE_refl (s : ModProbStats) : tablesLE s s :=
  ⟨fun _ _ => le_refl _, fun _ _ => le_refl _, fun _ _ => le_refl _,
   fun _ _ => le_refl _⟩

lemma tablesLE_trans {s t u : ModProbStats} (h1 : tablesLE s t)
    (h2 : tablesLE t u) : tablesLE s u :=
  ⟨fun i j => le_trans (h1.1 i j) (h2.1 i j),
   fun i j => le_trans (h1.2.1 i j) (h2.2.1 i j),
   fun i j => le_trans (h1.2.2.1 i j) (h2.2.2.1 i j),
   fun i j => le_trans (h1.2.2.2 i j) (h2.2.2.2 i j)⟩

lemma le_incr (t : Table) (e : Fin 4) (q : Fin 256) (i : Fin 4) (j : Fin 256) :
    t i j ≤ incr t e q i j := by
  unfold incr
  split <;> omega

lemma tablesLE_processSite (is_rev : Bool) (qlen : Nat) (base : Nat → Nat)
    (st : ModProbStats) (site : ModSite) :
    tablesLE st (processSite is_rev qlen base st site) := by
  refine ⟨fun i j => ?_, fun i j => ?_, fun i j => ?_, fun i j => ?_⟩
  all_goals
    unfold processSite
    dsimp only
    repeat' split
  all_goals
    first
      | exact le_refl _
      | exact le_incr _ _ _ i j

lemma histSum_v_sum (a b : Hist) :
    histSum (v_sum a b) = histSum a + histSum b := by
  unfold histSum v_sum
  exact Finset.sum_add_distrib

lemma mapSum_sum_to_map (f r : Table) :
    mapSum (sum_to_map f r) = tableSum f + tableSum r := by
  have h : mapSum (sum_to_map f r) =
      histSum (v_sum (f 0) (r 3)) + (histSum (v_sum (f 1) (r 2)) +
        (histSum (v_sum (f 2) (r 1)) + (histSum (v_sum (f 3) (r 0)) + 0))) := rfl
  rw [h, histSum_v_sum, histSum_v_sum, histSum_v_sum, histSum_v_sum]
  unfold tableSum
  rw [Fin.sum_univ_four, Fin.sum_univ_four]
  omega

/-! ## Claim theorems -/

/-- C1: contrary to the pairing rule, a modification-call site at which only
one modification kind is reported still contributes histogram increments.
On `singleKindRecord` (forward strand, one group at offset 0 with a single
call of quality 10, neighbor base `A`), the accumulator increments
`hydroxy_fwd` at context 0 and quality 10 using the one reported call, and
increments `methyl_fwd` at context 0 and quality 0 using the stale
zero-initialized scratch slot `mods[m_idx]` that the group never wrote: the
guard `n < m_idx` (with `m_idx = 1`) can never fire because the loop only
enters its body when `n > 0`. -/
theorem single_kind_site_increments :
    (singleKindRecord.sites.map (fun s => s.quals.length) = [1]) ∧
    (processRecord initStats singleKindRecord).hydroxy_fwd 0 10 = 1 ∧
    (processRecord initStats singleKindRecord).methyl_fwd 0 0 = 1 := by
  decide

/-- C2: the nucleotide encoder is total on all 256 byte values and always
returns a value in `{0,1,2,3,4}`; exactly the four uppercase bytes
`A` (65), `C` (67), `G` (71) and `T` (84) map to the distinct indices
0, 1, 2, 3, and every other byte maps to the invalid value 4. -/
theorem encoder_total_exact :
    ∀ b : Fin 256,
      encoding b.val ≤ 4 ∧
      encoding b.val =
        (if b.val = 65 then 0 else if b.val = 67 then 1
         else if b.val = 71 then 2 else if b.val = 84 then 3 else 4) := by
  decide

/-- C3: for a counted call site the context neighbor is the base at
`offset - 1` on the reverse strand and at `offset + 1` on the forward
strand — the histogram increments are keyed by the encoding of exactly that
base — and when the neighbor is absent (reverse-strand call at offset 0, or
forward-strand call with `offset + 1 ≥ read length`) the neighbor byte is
`'\0'`, which encodes to the invalid value, and the site leaves all four
histogram tables unchanged. -/
theorem neighbor_boundary :
    (∀ (qlen : Nat) (base : Nat → Nat) (st : ModProbStats) (site : ModSite),
       site.pos = 0 →
       tables (processSite true qlen base st site) = tables st) ∧
    (∀ (qlen : Nat) (base : Nat → Nat) (st : ModProbStats) (site : ModSite),
       qlen ≤ site.pos + 1 →
       tables (processSite false qlen base st site) = tables st) ∧
    (∀ (qlen : Nat) (base : Nat → Nat) (st : ModProbStats) (site : ModSite)
       (q0 q1 : Fin 256) (rest : List (Fin 256)),
       site.quals = q0 :: q1 :: rest →
       0 < site.pos →
       ∀ h : encoding (base (site.pos - 1)) < 4,
       tables (processSite true qlen base st site) =
         (st.methyl_fwd,
          incr st.methyl_rev ⟨encoding (base (site.pos - 1)), h⟩ q1,
          st.hydroxy_fwd,
          incr st.hydroxy_rev ⟨encoding (base (site.pos - 1)), h⟩ q0)) ∧
    (∀ (qlen : Nat) (base : Nat → Nat) (st : ModProbStats) (site : ModSite)
       (q0 q1 : Fin 256) (rest : List (Fin 256)),
       site.quals = q0 :: q1 :: rest →
       site.pos + 1 < qlen →
       ∀ h : encoding (base (site.pos + 1)) < 4,
       tables (processSite false qlen base st site) =
         (incr st.methyl_fwd ⟨encoding (base (site.pos + 1)), h⟩ q1,
          st.methyl_rev,
          incr st.hydroxy_fwd ⟨encoding (base (site.pos + 1)), h⟩ q0,
          st.hydroxy_rev)) := by
  refine ⟨?_, ?_, ?_, ?_⟩
  · intro qlen base st site hpos
    have h0 : encoding 0 = 4 := by decide
    simp [processSite, hpos, tables, h0, n_nucs]
  · intro qlen base st site hlen
    have h0 : encoding 0 = 4 := by decide
    have : ¬ (site.pos + 1 < qlen) := by omega
    simp [processSite, this, tables, h0, n_nucs]
  · intro qlen base st site q0 q1 rest hquals hpos h
    have hne : ¬ (encoding (base (site.pos - 1)) = n_nucs) := by
      simp [n_nucs]; omega
    simp [processSite, hquals, hpos, hne, m_idx, tables, writeMods, h_idx]
  · intro qlen base st site q0 q1 rest hquals hpos h
    have hne : ¬ (encoding (base (site.pos + 1)) = n_nucs) := by
      simp [n_nucs]; omega
    simp [processSite, hquals, hpos, hne, m_idx, tables, writeMods, h_idx]

/-- Witness for C3: each of the four cases applied at a concrete site — a
reverse-strand call at offset 0 and a forward-strand call at the last offset
leave the tables unchanged, and interior reverse/forward calls increment at
the encoding of the base at `offset - 1` resp. `offset + 1`. -/
theorem neighbor_boundary_witness :
    ((ModSite.pos ⟨0, [10]⟩ = 0) ∧
     tables (processSite true 5 (fun _ => 65) initStats ⟨0, [10]⟩) =
       tables initStats) ∧
    ((5 : Nat) ≤ 4 + 1 ∧
     tables (processSite false 5 (fun _ => 65) initStats ⟨4, [10]⟩) =
       tables initStats) ∧
    ((ModSite.quals ⟨3, [10, 20]⟩ = 10 :: 20 :: [] ∧ 0 < 3 ∧
      encoding ((fun _ => (65 : Nat)) (3 - 1)) < 4) ∧
     tables (processSite true 5 (fun _ => (65 : Nat)) initStats ⟨3, [10, 20]⟩) =
       (initStats.methyl_fwd,
        incr initStats.methyl_rev
          ⟨encoding ((fun _ => (65 : Nat)) (3 - 1)), by decide⟩ 20,
        initStats.hydroxy_fwd,
        incr initStats.hydroxy_rev
          ⟨encoding ((fun _ => (65 : Nat)) (3 - 1)), by decide⟩ 10)) ∧
    ((ModSite.quals ⟨1, [10, 20]⟩ = 10 :: 20 :: [] ∧ 1 + 1 < 5 ∧
      encoding ((fun _ => (65 : Nat)) (1 + 1)) < 4) ∧
     tables (processSite false 5 (fun _ => (65 : Nat)) initStats ⟨1, [10, 20]⟩) =
       (incr initStats.methyl_fwd
          ⟨encoding ((fun _ => (65 : Nat)) (1 + 1)), by decide⟩ 20,
        initStats.methyl_rev,
        incr initStats.hydroxy_fwd
          ⟨encoding ((fun _ => (65 : Nat)) (1 + 1)), by decide⟩ 10,
        initStats.hydroxy_rev)) :=
  ⟨⟨rfl, neighbor_boundary.1 5 (fun _ => 65) initStats ⟨0, [10]⟩ rfl⟩,
   ⟨by omega, neighbor_boundary.2.1 5 (fun _ => 65) initStats ⟨4, [10]⟩ (by decide)⟩,
   ⟨⟨rfl, by omega, by decide⟩,
    neighbor_boundary.2.2.1 5 (fun _ => (65 : Nat)) initStats ⟨3, [10, 20]⟩
      10 20 [] rfl (by decide) (by decide)⟩,
   ⟨⟨rfl, by omega, by decide⟩,
    neighbor_boundary.2.2.2 5 (fun _ => (65 : Nat)) initStats ⟨1, [10, 20]⟩
      10 20 [] rfl (by decide) (by decide)⟩⟩

/-- C4: the strand-collapsed formatter conserves counts — the total over the
8 collapsed histograms (4 methyl contexts plus 4 hydroxy contexts) equals the
total over the 8 raw per-strand histogram tables. -/
theorem collapse_conserves (mps : ModProbStats) :
    mapSum (mkFmt mps).methyl + mapSum (mkFmt mps).hydroxy =
      tableSum mps.methyl_fwd + tableSum mps.methyl_rev +
      tableSum mps.hydroxy_fwd + tableSum mps.hydroxy_rev := by
  unfold mkFmt
  rw [mapSum_sum_to_map, mapSum_sum_to_map]
  omega

/-- C5: for each modification kind, the strand-collapsed formatter produces a
map with exactly the four keys `CA`, `CC`, `CG`, `CT`, where the histogram at
key `dinucs i` is the element-wise sum of the forward histogram at context
index `i` and the reverse histogram at context index `3 - i`. -/
theorem collapse_entries (mps : ModProbStats) :
    (mkFmt mps).methyl =
      [("CA", fun j => mps.methyl_fwd 0 j + mps.methyl_rev 3 j),
       ("CC", fun j => mps.methyl_fwd 1 j + mps.methyl_rev 2 j),
       ("CG", fun j => mps.methyl_fwd 2 j + mps.methyl_rev 1 j),
       ("CT", fun j => mps.methyl_fwd 3 j + mps.methyl_rev 0 j)] ∧
    (mkFmt mps).hydroxy =
      [("CA", fun j => mps.hydroxy_fwd 0 j + mps.hydroxy_rev 3 j),
       ("CC", fun j => mps.hydroxy_fwd 1 j + mps.hydroxy_rev 2 j),
       ("CG", fun j => mps.hydroxy_fwd 2 j + mps.hydroxy_rev 1 j),
       ("CT", fun j => mps.hydroxy_fwd 3 j + mps.hydroxy_rev 0 j)] :=
  ⟨rfl, rfl⟩

/-- C6: the strand-separated formatter is a bijective relabeling with no
merging — forward tables are keyed by `dinucs` and reverse tables by
`dinucs_rev`, each raw histogram appears unchanged under its mapped key, so
every raw table is recoverable from the output by key lookup. -/
theorem stranded_relabeling (mps : ModProbStats) :
    ((mkFmtStranded mps).methyl_fwd.map Prod.fst = ["CA", "CC", "CG", "CT"] ∧
     (mkFmtStranded mps).methyl_rev.map Prod.fst = ["CT", "CG", "CC", "CA"] ∧
     (mkFmtStranded mps).hydroxy_fwd.map Prod.fst = ["CA", "CC", "CG", "CT"] ∧
     (mkFmtStranded mps).hydroxy_rev.map Prod.fst = ["CT", "CG", "CC", "CA"]) ∧
    (∀ i : Fin 4,
      (mkFmtStranded mps).methyl_fwd.lookup (dinucs i) = some (mps.methyl_fwd i) ∧
      (mkFmtStranded mps).methyl_rev.lookup (dinucs_rev i) = some (mps.methyl_rev i) ∧
      (mkFmtStranded mps).hydroxy_fwd.lookup (dinucs i) = some (mps.hydroxy_fwd i) ∧
      (mkFmtStranded mps).hydroxy_rev.lookup (dinucs_rev i) = some (mps.hydroxy_rev i)) := by
  refine ⟨⟨rfl, rfl, rfl, rfl⟩, fun i => ?_⟩
  fin_cases i <;> exact ⟨rfl, rfl, rfl, rfl⟩

/-- C7: every histogram counter is monotonically non-decreasing — processing
any alignment record leaves each of the 4×4×256 counters unchanged or
increased, never decremented or reset. -/
theorem counters_monotone (st : ModProbStats) (rec : BamRecord) :
    tablesLE st (processRecord st rec) := by
  unfold processRecord
  generalize rec.sites = sites
  induction sites generalizing st with
  | nil => exact tablesLE_refl st
  | cons s rest ih =>
    exact tablesLE_trans (tablesLE_processSite _ _ _ st s) (ih _)

/-- C8 counterexample: the encoder is not idempotent — byte 65 (`A`) encodes
to 0, but 0 encodes to 4, so `encoding (encoding 65) ≠ encoding 65`. -/
theorem encoding_not_idempotent : encoding (encoding 65) ≠ encoding 65 := by
  decide

/-- C8 (amended): the encoder is idempotent only on bytes that encode to the
invalid value — if `encoding b = 4` then `encoding (encoding b) = encoding b`;
the four valid bases violate idempotence because their codes 0–3 themselves
encode to 4. -/
theorem encoding_idempotent_on_invalid (b : Nat) (h : encoding b = 4) :
    encoding (encoding b) = encoding b := by
  rw [h]; decide

/-- Witness for the amended C8: byte 66 (`B`) encodes to 4 and is a fixed
point of the composed encoding. -/
theorem encoding_idempotent_on_invalid_witness :
    encoding 66 = 4 ∧ encoding (encoding 66) = encoding 66 :=
  ⟨by decide, encoding_idempotent_on_invalid 66 (by decide)⟩

/-- C9: if the record stream ends at a status below the EOF sentinel `-1`,
the run exits with a non-zero status, emits the diagnostic, and writes no
report (the partially accumulated histograms are discarded); a report is
written, with exit status 0, exactly when the stream ends at `-1`. -/
theorem read_failure_aborts (records : List BamRecord) (finalStatus : Int)
    (stranded : Bool) (hle : finalStatus ≤ -1) :
    (finalStatus < -1 →
      runMain records finalStatus stranded =
        { exit_code := 1, diagnostic := some "failed reading bam record",
          report := none }) ∧
    ((runMain records finalStatus stranded).report = none ↔ finalStatus < -1) ∧
    ((runMain records finalStatus stranded).exit_code = 0 ↔ finalStatus = -1) := by
  unfold runMain
  by_cases h : finalStatus < -1 <;> simp [h] <;> omega

/-- Witness for C9: an empty stream ending at status `-2` aborts with exit
code 1, the diagnostic message, and no report. -/
theorem read_failure_aborts_witness :
    ((-2 : Int) ≤ -1) ∧
    runMain [] (-2) false =
      { exit_code := 1, diagnostic := some "failed reading bam record",
        report := none } :=
  ⟨by decide, (read_failure_aborts [] (-2) false (by decide)).1 (by decide)⟩

/-- C10: the per-read accumulators of the two source variants compute
identical raw stats tables on any stream of records processed in the same
order (the variants differ only in the formatting layer). -/
theorem variants_accumulate_identically (records : List BamRecord)
    (st : ModProbStats) :
    tables (records.foldl processRecordV2 st) =
      tables (records.foldl processRecord st) := rfl

end NanoporeMods
